import Mathlib

set_option autoImplicit false

/-!
Verification development for the OBATA SMART SAVINGS storage system
(StorageManager v2.3, DataMigrator v2.2→v2.3, standalone BackupUtility).

The JavaScript source is shallowly embedded: plain records become Lean
structures, the browser's localStorage becomes an explicit `Store` record of
optional values threaded through the operations, and each method of the
source becomes a pure Lean function of the same name (suffixed `F`).
Timestamps (`new Date().toISOString()`), `navigator.userAgent` and the
random/clock-based id generators are nondeterministic inputs in the source,
so they are passed in explicitly through `Env` / `MigEnv` records.
-/

/-- JavaScript `a || d` for an optional string `a`: `undefined` and the empty
string are falsy. -/
def jsOr (a : Option String) (d : String) : String :=
  match a with
  | some s => if s = "" then d else s
  | none => d

/-- JavaScript `a || d` for an optional number `a`: `undefined` and `0` are
falsy. -/
def jsOrInt (a : Option Int) (d : Int) : Int :=
  match a with
  | some n => if n = 0 then d else n
  | none => d

/-- Accumulate the decimal digits of a leading digit run; `none` when no digit
has been seen (JS `parseInt` would give `NaN` there). -/
def parseDigits : List Char → Option Nat → Option Nat
  | [], acc => acc
  | c :: cs, acc =>
    if c.isDigit then parseDigits cs (some ((acc.getD 0) * 10 + (c.toNat - 48)))
    else acc

/-- JavaScript `parseInt` on the decimal strings this code base feeds it
(member ids, customer ids): an optional sign followed by a digit run, parsing
stopping at the first non-digit.  `NaN` (no digits at all) is modelled as 0;
no claim depends on that corner. -/
def parseIntD (s : String) : Int :=
  match s.toList with
  | '-' :: cs => -(Int.ofNat ((parseDigits cs none).getD 0))
  | cs => Int.ofNat ((parseDigits cs none).getD 0)

/-- Permission set (boolean flag per capability), as in `getDefaultUsers` /
`getDefaultPermissions`. -/
structure Permissions where
  member_creation : Bool := false
  transaction_posting : Bool := false
  withdrawal : Bool := false
  loan_management : Bool := false
  account_closure : Bool := false
  account_reactivation : Bool := false
  view_statements : Bool := false
  search_customers : Bool := false
  generate_reports : Bool := false
  manage_users : Bool := false
  import_export : Bool := false
  system_settings : Bool := false
  drive_management : Bool := false
deriving DecidableEq

structure User where
  id : Int
  username : String
  password_hash : String := ""
  name : String := ""
  role : String := ""
  permissions : Permissions := {}
  created : String := ""
  created_by : Option String := none
  last_login : Option String := none
  active : Bool := true
deriving DecidableEq

/-- v2.3 Customer record, the shape produced by `DataMigrator.transformData`.
`balance` is not part of that shape — it is the legacy field name that
`StorageManager.calculateTotalSavings` still reads — so it is carried as an
`Option` that is `none` on every record the migrator builds. -/
structure Customer where
  id : Int
  name : String := ""
  phone : String := ""
  email : String := ""
  address : String := ""
  date_joined : String := ""
  status : String := "active"
  balance_savings : Int := 0
  balance_loans : Int := 0
  balance : Option Int := none
  closure_date : Option String := none
  closure_reason : String := ""
  created_by : String := "system"
  last_updated : String := ""
deriving DecidableEq

structure Transaction where
  txId : Int
  customer_id : Int := 0
  type : String := ""
  amount : Int := 0
  date : String := ""
  value_date : String := ""
  status : String := "completed"
  processed_by : String := "system"
  reference : String := ""
  notes : String := ""
  reversal_of : Option Int := none
deriving DecidableEq

structure Loan where
  loanId : Int
  amount_outstanding : Int := 0
  status : String := "active"
deriving DecidableEq

/-- Settings are a flat JS object whose values the store never computes with;
they are modelled as an association list from key to the value's literal
rendering. -/
abbrev SettingsObj := List (String × String)

/-- Derived metadata record.  `saveAllData` builds it with exactly seven
fields; the migrator additionally stamps `migration_version` /
`migration_date`, so those two are optional. -/
structure Metadata where
  total_customers : Nat := 0
  total_transactions : Nat := 0
  total_savings : Int := 0
  total_loans : Int := 0
  last_customer_id : Int := 100
  last_transaction_id : Int := 1000
  last_updated : String := ""
  migration_version : Option String := none
  migration_date : Option String := none
deriving DecidableEq

structure AuditEntry where
  timestamp : String
  action : String
  details : List (String × String) := []
  user_agent : String := ""
deriving DecidableEq

/-- The summary counts embedded in backup records (`metadata` of a
`createBackup` entry, `items` of a `logBackup` entry). -/
structure BackupMeta where
  customers : Nat := 0
  transactions : Nat := 0
  users : Nat := 0
deriving DecidableEq

/-- One element of `backup_history`, polymorphic in the snapshot type so the
snapshot can nest inside its own history.  `createBackup` entries carry
`data` and `metadata`; `logBackup` entries carry `size` and `items` and no
embedded snapshot. -/
structure BackupEntryF (σ : Type) where
  type : String
  timestamp : String
  data : Option σ := none
  metadata : Option BackupMeta := none
  size : Option Nat := none
  items : Option BackupMeta := none

/-- The in-memory snapshot (`this.currentData`): the eight named collections.
Recursive because every `createBackup` entry embeds a shallow copy of the
whole snapshot. -/
inductive Snapshot : Type where
  | mk (settings : SettingsObj) (users : List User) (customers : List Customer)
       (transactions : List Transaction) (loans : List Loan)
       (backup_history : List (BackupEntryF Snapshot))
       (audit_log : List AuditEntry) (metadata : Metadata)

abbrev BackupEntry := BackupEntryF Snapshot

def Snapshot.settings : Snapshot → SettingsObj
  | ⟨s, _, _, _, _, _, _, _⟩ => s

def Snapshot.users : Snapshot → List User
  | ⟨_, u, _, _, _, _, _, _⟩ => u

def Snapshot.customers : Snapshot → List Customer
  | ⟨_, _, c, _, _, _, _, _⟩ => c

def Snapshot.transactions : Snapshot → List Transaction
  | ⟨_, _, _, t, _, _, _, _⟩ => t

def Snapshot.loans : Snapshot → List Loan
  | ⟨_, _, _, _, l, _, _, _⟩ => l

def Snapshot.backup_history : Snapshot → List BackupEntry
  | ⟨_, _, _, _, _, b, _, _⟩ => b

def Snapshot.audit_log : Snapshot → List AuditEntry
  | ⟨_, _, _, _, _, _, a, _⟩ => a

def Snapshot.metadata : Snapshot → Metadata
  | ⟨_, _, _, _, _, _, _, m⟩ => m

/-- The nondeterministic inputs of a StorageManager call: the current
timestamp and the browser's user-agent string. -/
structure Env where
  now : String := ""
  ua : String := ""

/-- A v2.2 member record as `DataMigrator.transformData` reads it from the
old `members` object; every field it accesses may be absent. -/
structure OldMember where
  name : Option String := none
  phone : Option String := none
  email : Option String := none
  address : Option String := none
  date : Option String := none
  active : Option Bool := none
  closureDate : Option String := none
  closureReason : Option String := none
  createdBy : Option String := none
deriving DecidableEq

/-- A v2.2 ledger entry as the migrator reads it.  `cust` is the member key
(compared via `toString()` against the member id, so kept as a string). -/
structure OldTx where
  cust : String
  type : String := ""
  amount : Int := 0
  txId : Option Int := none
  date : Option String := none
  valueDate : Option String := none
  reversed : Bool := false
  processedBy : Option String := none
  ref : Option String := none
  notes : Option String := none
deriving DecidableEq

/-- A v2.2 user record as the migrator reads it. -/
structure OldUser where
  id : Option Int := none
  username : String := ""
  password : String := ""
  name : String := ""
  role : String := ""
  permissions : Option Permissions := none
  created : Option String := none
  createdBy : Option String := none
  lastLogin : Option String := none
  active : Option Bool := none
deriving DecidableEq

/-- The bundle of old-schema records: what `loadOldData` returns and what
`archiveOldData` stores under `obata_v2_archive_v22`.  A `none` field is a
key absent from storage (and hence absent from the archive object). -/
structure OldData where
  auth : Option String := none
  members : Option (List (String × OldMember)) := none
  ledger : Option (List OldTx) := none
  last_id : Option Int := none
  users : Option (List OldUser) := none
  settings : Option SettingsObj := none
deriving DecidableEq

/-- The browser's localStorage, restricted to the keys this code base reads
and writes: the `obata_` (v2.2) keys and the `obata_v2_` (v2.3) keys.
`none` models an absent key. -/
structure Store where
  old_auth : Option String := none
  old_members : Option (List (String × OldMember)) := none
  old_ledger : Option (List OldTx) := none
  old_last_id : Option Int := none
  old_users : Option (List OldUser) := none
  old_settings : Option SettingsObj := none
  v2_settings : Option SettingsObj := none
  v2_users : Option (List User) := none
  v2_customers : Option (List Customer) := none
  v2_transactions : Option (List Transaction) := none
  v2_loans : Option (List Loan) := none
  v2_backup_history : Option (List BackupEntry) := none
  v2_audit_log : Option (List AuditEntry) := none
  v2_metadata : Option Metadata := none
  v2_archive : Option OldData := none

/-- `StorageManager.getDefaultSettings` (values rendered as literals). -/
def getDefaultSettingsF : SettingsObj :=
  [("app_name", "OBATA SMART SAVINGS"), ("currency", "₦"),
   ("default_interest_rate", "5.0"), ("minimum_savings", "100"),
   ("maximum_loan_multiplier", "2.0"), ("auto_backup_interval", "daily"),
   ("backup_retention_days", "30"), ("theme", "light"), ("language", "en"),
   ("date_format", "dd/mm/yyyy"), ("timezone", "Africa/Lagos")]

/-- The all-true permission object literal of `getDefaultUsers`. -/
def allPermissions : Permissions :=
  { member_creation := true, transaction_posting := true, withdrawal := true,
    loan_management := true, account_closure := true,
    account_reactivation := true, view_statements := true,
    search_customers := true, generate_reports := true, manage_users := true,
    import_export := true, system_settings := true, drive_management := true }

/-- `StorageManager.getDefaultUsers` (the seeded admin; `created` is the call
timestamp). -/
def getDefaultUsersF (now : String) : List User :=
  [{ id := 1, username := "Admin", password_hash := "admin123",
     name := "Administrator", role := "admin", permissions := allPermissions,
     created := now, created_by := none, last_login := none, active := true }]

/-- `StorageManager.getDefaultMetadata`. -/
def getDefaultMetadataF (now : String) : Metadata :=
  { total_customers := 0, total_transactions := 0, total_savings := 0,
    total_loans := 0, last_customer_id := 100, last_transaction_id := 1000,
    last_updated := now, migration_version := none, migration_date := none }

/-- `StorageManager.createDefaultData`. -/
def createDefaultDataF (now : String) : Snapshot :=
  .mk getDefaultSettingsF (getDefaultUsersF now) [] [] [] [] []
    (getDefaultMetadataF now)

/-- `StorageManager.calculateTotalSavings`: reduces
`total + (customer.balance || 0)` — note it reads the legacy `balance`
field, not `balance_savings`. -/
def calculateTotalSavings (customers : List Customer) : Int :=
  customers.foldl (fun total c => total + jsOrInt c.balance 0) 0

/-- `StorageManager.calculateTotalLoans`: sum of `amount_outstanding` over
loans with status `active`. -/
def calculateTotalLoans (loans : List Loan) : Int :=
  (loans.filter (fun l => l.status == "active")).foldl
    (fun total l => total + l.amount_outstanding) 0

/-- `StorageManager.getLastId`: `Math.max(...ids, 100)`, or 100 for an empty
collection (`parseInt` of an integer id is the id itself). -/
def getLastId (ids : List Int) : Int :=
  if ids.isEmpty then 100 else ids.foldl (fun a b => max a b) 100

/-- JavaScript object spread `{ ...base, ...extra }` on association lists:
base's keys keep their position with extra's value where extra also has the
key, then extra's novel keys follow. -/
def jsSpread (base extra : SettingsObj) : SettingsObj :=
  base.map (fun kv =>
    match List.lookup kv.1 extra with
    | some w => (kv.1, w)
    | none => kv) ++
  extra.filter (fun kv => (List.lookup kv.1 base).isNone)

/-- `StorageManager.logAudit`: prepend an entry, truncate the audit log to
1000, and persist it. -/
def logAuditF (env : Env) (action : String) (details : List (String × String))
    (st : Snapshot) (store : Store) : Snapshot × Store :=
  let e : AuditEntry :=
    { timestamp := env.now, action := action, details := details,
      user_agent := env.ua }
  let al := e :: st.audit_log
  let al := if al.length > 1000 then al.take 1000 else al
  (.mk st.settings st.users st.customers st.transactions st.loans
     st.backup_history al st.metadata,
   { store with v2_audit_log := some al })

/-- `StorageManager.saveAllData`: recompute the metadata from the live
collections, write every component to storage, then append a `DATA_SAVED`
audit entry (which rewrites the audit log key). -/
def saveAllDataF (env : Env) (st : Snapshot) (store : Store) :
    Snapshot × Store :=
  let md : Metadata :=
    { total_customers := st.customers.length,
      total_transactions := st.transactions.length,
      total_savings := calculateTotalSavings st.customers,
      total_loans := calculateTotalLoans st.loans,
      last_customer_id := getLastId (st.customers.map (fun c => c.id)),
      last_transaction_id := getLastId (st.transactions.map (fun t => t.txId)),
      last_updated := env.now,
      migration_version := none, migration_date := none }
  let st1 : Snapshot :=
    .mk st.settings st.users st.customers st.transactions st.loans
      st.backup_history st.audit_log md
  let store1 : Store :=
    { store with
      v2_settings := some st1.settings, v2_users := some st1.users,
      v2_customers := some st1.customers,
      v2_transactions := some st1.transactions, v2_loans := some st1.loans,
      v2_backup_history := some st1.backup_history,
      v2_audit_log := some st1.audit_log, v2_metadata := some md }
  logAuditF env "DATA_SAVED"
    [("timestamp", env.now),
     ("items_saved", toString (md.total_customers + md.total_transactions)),
     ("user", "system")] st1 store1

/-- In-memory part of `StorageManager.createBackup`: build the backup record
(with a shallow copy of the whole current snapshot embedded), prepend it to
`backup_history` and truncate the history to 50. -/
def createBackupCore (env : Env) (ty : String) (st : Snapshot) :
    Snapshot × BackupEntry :=
  let b : BackupEntry :=
    { type := ty, timestamp := env.now, data := some st,
      metadata := some { customers := st.customers.length,
                         transactions := st.transactions.length,
                         users := st.users.length },
      size := none, items := none }
  let bh := b :: st.backup_history
  let bh := if bh.length > 50 then bh.take 50 else bh
  (.mk st.settings st.users st.customers st.transactions st.loans bh
     st.audit_log st.metadata, b)

/-- `StorageManager.createBackup`: the in-memory mutation plus the single
`backup_history` write to storage. -/
def createBackupF (env : Env) (ty : String) (st : Snapshot) (store : Store) :
    Snapshot × Store × BackupEntry :=
  let (st1, b) := createBackupCore env ty st
  (st1, { store with v2_backup_history := some st1.backup_history }, b)

/-- A parsed backup container's `data` member as import validation sees it:
`customers` and `transactions` may be absent (that is what validation
checks); the remaining members are carried directly.  (A container whose
`users`/`loans`/`settings` were absent would crash `mergeData` in the
source; no claim exercises that corner, so they are total here.) -/
structure ContainerData where
  settings : SettingsObj := []
  users : List User := []
  customers : Option (List Customer) := none
  transactions : Option (List Transaction) := none
  loans : List Loan := []
  backup_history : List BackupEntry := []
  audit_log : List AuditEntry := []
  metadata : Option Metadata := none

/-- A parsed export/import container. -/
structure Container where
  schema_version : String := ""
  export_date : Option String := none
  data : Option ContainerData := none
  checksum : Option Int := none

/-- 32-bit signed coercion (JavaScript `| 0` / `& hash`). -/
def toInt32 (n : Int) : Int := (n + 2 ^ 31) % 2 ^ 32 - 2 ^ 31

/-- `StorageManager.generateChecksum` as a function of the serialized JSON
text: `hash = ((hash << 5) - hash) + charCode; hash = hash & hash` over the
characters.  (The final `toString(16)` rendering is not modelled; nothing in
the code base reads the checksum back.) -/
def generateChecksumF (s : String) : Int :=
  s.toList.foldl (fun h c => toInt32 (toInt32 (h * 32) - h + (c.toNat : Int))) 0

/-- View of the current snapshot as a container `data` member, as
`exportAllData` embeds it. -/
def Snapshot.toContainerData (st : Snapshot) : ContainerData :=
  { settings := st.settings, users := st.users,
    customers := some st.customers, transactions := some st.transactions,
    loans := st.loans, backup_history := st.backup_history,
    audit_log := st.audit_log, metadata := some st.metadata }

/-- `StorageManager.logBackup`: prepend a log record (size and item counts,
no embedded snapshot) to `backup_history` and persist it — with no
truncation.  `size` is the length of the serialized container, passed in. -/
def logBackupF (env : Env) (ty : String) (size : Nat) (backupData : Container)
    (st : Snapshot) (store : Store) : Snapshot × Store :=
  let counts : BackupMeta :=
    { customers := ((backupData.data.bind (fun d => d.customers)).getD []).length,
      transactions := ((backupData.data.bind (fun d => d.transactions)).getD []).length,
      users := (backupData.data.map (fun d => d.users.length)).getD 0 }
  let e : BackupEntry :=
    { type := ty, timestamp := env.now, data := none, metadata := none,
      size := some size, items := some counts }
  let bh := e :: st.backup_history
  (.mk st.settings st.users st.customers st.transactions st.loans bh
     st.audit_log st.metadata,
   { store with v2_backup_history := some bh })

/-- `StorageManager.exportAllData`: build the versioned, checksummed
container from the current snapshot (the file's content), then log the
backup.  `serialized` stands for `JSON.stringify(this.currentData)`, the
input of the checksum; `size` for the length of the serialized container. -/
def exportAllDataF (env : Env) (serialized : String) (size : Nat)
    (st : Snapshot) (store : Store) : Container × Snapshot × Store :=
  let container : Container :=
    { schema_version := "2.3", export_date := some env.now,
      data := some st.toContainerData,
      checksum := some (generateChecksumF serialized) }
  let (st1, store1) := logBackupF env "manual" size container st store
  (container, st1, store1)

/-- `StorageManager.validateImportData`. -/
def validateImportDataF (c : Container) : Bool :=
  c.schema_version == "2.3" &&
  (match c.data with
   | none => false
   | some d => d.customers.isSome && d.transactions.isSome)

/-- The collections `mergeData` reads off the imported `data` object. -/
structure ImportSnap where
  customers : List Customer := []
  transactions : List Transaction := []
  users : List User := []
  settings : SettingsObj := []
  loans : List Loan := []

/-- The duplicate-avoiding union of `mergeData`: start from the existing
collection and push each imported element unless some element already
accumulated has the same key (`!merged.find(x => key x === key v)`). -/
def mergeUnique {α κ : Type} [BEq κ] (key : α → κ) (existing imported : List α) :
    List α :=
  imported.foldl
    (fun merged x =>
      if merged.any (fun y => key y == key x) then merged else merged ++ [x])
    existing

/-- JavaScript `Array.prototype.findIndex`: the index of the first element
satisfying the predicate, `-1` when there is none. -/
def jsFindIndex {α : Type} (p : α → Bool) : List α → Int
  | [] => -1
  | x :: xs =>
    if p x then 0
    else
      let r := jsFindIndex p xs
      if r = -1 then -1 else r + 1

/-- The loan de-duplication of `mergeData`:
`a.filter((v, i, a) => a.findIndex(t => t.loanId === v.loanId) === i)`. -/
def dedupLoansByFirst (a : List Loan) : List Loan :=
  (a.enum.filter (fun p =>
      jsFindIndex (fun t => t.loanId == p.2.loanId) a == (p.1 : Int))).map
    Prod.snd

/-- `StorageManager.mergeData`.  The result spreads the existing snapshot
(`...existing`), so `backup_history`, `audit_log` and `metadata` stay the
existing snapshot's. -/
def mergeDataF (existing : Snapshot) (imported : ImportSnap) : Snapshot :=
  .mk (jsSpread existing.settings imported.settings)
    (mergeUnique (fun u => u.username) existing.users imported.users)
    (mergeUnique (fun c => c.id) existing.customers imported.customers)
    (mergeUnique (fun t => t.txId) existing.transactions imported.transactions)
    (dedupLoansByFirst (existing.loans ++ imported.loans))
    existing.backup_history existing.audit_log existing.metadata

/-- Outcome of `importData` on a parsed container: success with the new
snapshot and storage, or rejection (`Invalid backup file format`) with both
untouched. -/
inductive ImportResult : Type where
  | ok (st : Snapshot) (store : Store)
  | invalidFormat (st : Snapshot) (store : Store)

def ImportResult.snap : ImportResult → Snapshot
  | .ok st _ => st
  | .invalidFormat st _ => st

def ImportResult.store : ImportResult → Store
  | .ok _ s => s
  | .invalidFormat _ s => s

def ImportResult.isOk : ImportResult → Bool
  | .ok _ _ => true
  | .invalidFormat _ _ => false

/-- `StorageManager.importData` on a parsed container: validate (rejecting
before any mutation), back up the current data as `pre_import_backup`, merge
the imported data into the current snapshot, save, and log `DATA_IMPORTED`.
The two inner `invalidFormat` arms are unreachable when validation has
succeeded; they mirror the fields validation guaranteed present. -/
def importDataF (env : Env) (c : Container) (st : Snapshot) (store : Store) :
    ImportResult :=
  if validateImportDataF c then
    match c.data with
    | some d =>
      match d.customers, d.transactions with
      | some cs, some ts =>
        let (st1, store1, _) := createBackupF env "pre_import_backup" st store
        let merged := mergeDataF st1
          { customers := cs, transactions := ts, users := d.users,
            settings := d.settings, loans := d.loans }
        let (st2, store2) := saveAllDataF env merged store1
        let (st3, store3) := logAuditF env "DATA_IMPORTED"
          [("timestamp", env.now), ("source", "file"),
           ("items_imported",
            toString ((d.metadata.map (fun m => m.total_customers)).getD 0)),
           ("user", "system")] st2 store2
        .ok st3 store3
      | _, _ => .invalidFormat st store
    | none => .invalidFormat st store
  else .invalidFormat st store

/-- `StorageManager.restoreBackup`: the returned `Option Snapshot` is the
in-memory `this.currentData` afterwards and the `Bool` the method's return
value.  Out of range: `Backup not found` is thrown and caught, nothing
mutated.  An entry with an embedded copy: safety backup, replace the live
snapshot with the copy, save, log `BACKUP_RESTORED`.  An entry without an
embedded copy (a `logBackup` record): the safety backup still runs, then
`this.currentData = backup.data` sets the live snapshot to `undefined`,
`saveAllData` warns and writes nothing, and `logAudit` throws on
`undefined.audit_log` — caught, returning `false`. -/
def restoreBackupF (env : Env) (backupIndex : Nat) (st : Snapshot)
    (store : Store) : Option Snapshot × Store × Bool :=
  match st.backup_history.get? backupIndex with
  | none => (some st, store, false)
  | some b =>
    let (_st1, store1, _) := createBackupF env "pre_restore_backup" st store
    match b.data with
    | none => (none, store1, false)
    | some d =>
      let (d1, store2) := saveAllDataF env d store1
      let (d2, store3) := logAuditF env "BACKUP_RESTORED"
        [("timestamp", env.now), ("backup_timestamp", b.timestamp),
         ("user", "system")] d1 store2
      (some d2, store3, true)

/-- A parsed container as the standalone `BackupUtility` builds and validates
it (`backup_date` rather than `export_date`; a `checksum` field is carried so
that its irrelevance to validation can be stated). -/
structure BakContainer where
  schema_version : String := ""
  backup_date : Option String := none
  data : Option ContainerData := none
  checksum : Option Int := none

/-- `BackupUtility.validateBackup`: requires the version string, a `data`
object, a truthy `backup_date` (the empty string is falsy), and
`data.customers || data.transactions` — at least one of the two present (a
present-but-empty array is truthy in JavaScript). -/
def validateBackupF (b : BakContainer) : Bool :=
  b.schema_version == "2.3" &&
  b.data.isSome &&
  (match b.backup_date with
   | some s => !(s == "")
   | none => false) &&
  (match b.data with
   | some d => d.customers.isSome || d.transactions.isSome
   | none => false)

/-- The nondeterministic inputs of a `DataMigrator` run: the call timestamp,
the date part `new Date().toISOString().split('T')[0]`, the per-entry
synthesized transaction id `Date.now() + Math.random()` (by ledger
position), and the random `generateId()` values (by user position). -/
structure MigEnv where
  now : String := ""
  today : String := ""
  ua : String := ""
  freshTxId : Nat → Int := fun _ => 0
  genId : Nat → Int := fun _ => 0

def MigEnv.toEnv (e : MigEnv) : Env := { now := e.now, ua := e.ua }

/-- `DataMigrator.calculateSavingsBalance`: over the customer's non-reversed
ledger entries, add DAILY/WEEKLY/MONTHLY amounts and subtract WITHDRAWAL
amounts. -/
def calculateSavingsBalanceF (customerId : String) (ledger : Option (List OldTx)) :
    Int :=
  match ledger with
  | none => 0
  | some l =>
    let customerTxs := l.filter (fun tx => tx.cust == customerId && !tx.reversed)
    customerTxs.foldl
      (fun balance tx =>
        if tx.type == "DAILY" || tx.type == "WEEKLY" || tx.type == "MONTHLY" then
          balance + tx.amount
        else if tx.type == "WITHDRAWAL" then balance - tx.amount
        else balance)
      0

/-- `DataMigrator.calculateLoanBalance`: LOAN minus LOAN_REPAY over the
customer's non-reversed ledger entries. -/
def calculateLoanBalanceF (customerId : String) (ledger : Option (List OldTx)) :
    Int :=
  match ledger with
  | none => 0
  | some l =>
    let customerTxs := l.filter (fun tx => tx.cust == customerId && !tx.reversed)
    customerTxs.foldl
      (fun balance tx =>
        if tx.type == "LOAN" then balance + tx.amount
        else if tx.type == "LOAN_REPAY" then balance - tx.amount
        else balance)
      0

/-- `DataMigrator.calculateTotalSavings` — unlike the StorageManager method
of the same name, this one sums `balance_savings`. -/
def migCalculateTotalSavings (customers : List Customer) : Int :=
  customers.foldl (fun total c => total + c.balance_savings) 0

/-- `DataMigrator.getDefaultPermissions`. -/
def getDefaultPermissionsF (role : String) : Permissions :=
  if role == "admin" then allPermissions
  else if role == "supervisor" then
    { member_creation := true, transaction_posting := true,
      withdrawal := true, loan_management := true, account_closure := true,
      account_reactivation := true, view_statements := true,
      search_customers := true, generate_reports := true }
  else if role == "thrift_collector" then
    { member_creation := true, transaction_posting := true,
      withdrawal := true, loan_management := true, view_statements := true,
      search_customers := true }
  else {}

/-- One customer of `DataMigrator.transformData`, from a member keyed by
`id` in the old `members` object. -/
def transformMember (env : MigEnv) (ledger : Option (List OldTx))
    (idStr : String) (member : OldMember) : Customer :=
  { id := parseIntD idStr,
    name := member.name.getD "",
    phone := member.phone.getD "",
    email := member.email.getD "",
    address := member.address.getD "",
    date_joined := member.date.getD env.today,
    status := if member.active == some false then "inactive" else "active",
    balance_savings := calculateSavingsBalanceF idStr ledger,
    balance_loans := calculateLoanBalanceF idStr ledger,
    balance := none,
    closure_date := member.closureDate,
    closure_reason := member.closureReason.getD "",
    created_by := member.createdBy.getD "system",
    last_updated := env.now }

/-- One transaction of `DataMigrator.transformData`, from the old ledger
entry at position `i`. -/
def transformTx (env : MigEnv) (i : Nat) (tx : OldTx) : Transaction :=
  { txId := jsOrInt tx.txId (env.freshTxId i),
    customer_id := parseIntD tx.cust,
    type := tx.type,
    amount := tx.amount,
    date := jsOr tx.date env.now,
    value_date := jsOr tx.valueDate (jsOr tx.date env.now),
    status := if tx.reversed then "reversed" else "completed",
    processed_by := tx.processedBy.getD "system",
    reference := tx.ref.getD "",
    notes := tx.notes.getD "",
    reversal_of := if tx.reversed then tx.txId else none }

/-- One user of `DataMigrator.transformData`, from the old user at position
`i`. -/
def transformUser (env : MigEnv) (i : Nat) (user : OldUser) : User :=
  { id := jsOrInt user.id (env.genId i),
    username := user.username,
    password_hash := user.password,
    name := user.name,
    role := user.role,
    permissions := user.permissions.getD (getDefaultPermissionsF user.role),
    created := user.created.getD env.now,
    created_by := some (user.createdBy.getD "system"),
    last_login := user.lastLogin,
    active := !(user.active == some false) }

/-- `DataMigrator.transformData`: members → customers (in the old object's
key order), ledger → transactions (1:1, in order), users → users, settings
overlaid on the fixed v2.3 defaults, empty loans and logs, and freshly
derived metadata stamped with the migration marker. -/
def transformDataF (env : MigEnv) (oldData : OldData) : Snapshot :=
  let customers : List Customer :=
    match oldData.members with
    | none => []
    | some ms => ms.map (fun kv => transformMember env oldData.ledger kv.1 kv.2)
  let transactions : List Transaction :=
    match oldData.ledger with
    | none => []
    | some l => l.enum.map (fun p => transformTx env p.1 p.2)
  let users : List User :=
    match oldData.users with
    | none => []
    | some us =>
      if us.length > 0 then us.enum.map (fun p => transformUser env p.1 p.2)
      else []
  let settings : SettingsObj :=
    match oldData.settings with
    | none => getDefaultSettingsF
    | some s => jsSpread getDefaultSettingsF s
  .mk settings users customers transactions [] [] []
    { total_customers := customers.length,
      total_transactions := transactions.length,
      total_savings := migCalculateTotalSavings customers,
      total_loans := 0,
      last_customer_id := jsOrInt oldData.last_id 100,
      last_transaction_id := 1000,
      last_updated := env.now,
      migration_version := some "2.2_to_2.3",
      migration_date := some env.now }

/-- `DataMigrator.loadOldData`: each old key that is present, `none` when no
old key is present at all. -/
def loadOldDataF (store : Store) : Option OldData :=
  let d : OldData :=
    { auth := store.old_auth, members := store.old_members,
      ledger := store.old_ledger, last_id := store.old_last_id,
      users := store.old_users, settings := store.old_settings }
  if d.auth.isNone && d.members.isNone && d.ledger.isNone &&
      d.last_id.isNone && d.users.isNone && d.settings.isNone then none
  else some d

/-- `DataMigrator.archiveOldData`: bundle the present old keys into the
archive record, delete them, and write the archive under the v2 key. -/
def archiveOldDataF (store : Store) : Store :=
  let archive : OldData :=
    { auth := store.old_auth, members := store.old_members,
      ledger := store.old_ledger, last_id := store.old_last_id,
      users := store.old_users, settings := store.old_settings }
  { store with
    old_auth := none, old_members := none, old_ledger := none,
    old_last_id := none, old_users := none, old_settings := none,
    v2_archive := some archive }

/-- `DataMigrator.isAlreadyMigrated`: the v2.3 settings key or the archive
key already exists. -/
def isAlreadyMigratedF (store : Store) : Bool :=
  store.v2_settings.isSome || store.v2_archive.isSome

/-- `DataMigrator.saveNewData`: a fresh StorageManager whose current data is
the transformed snapshot, saved via `saveAllData` (the in-memory manager is
then discarded; only the writes remain). -/
def saveNewDataF (env : MigEnv) (data : Snapshot) (store : Store) : Store :=
  (saveAllDataF env.toEnv data store).2

/-- `DataMigrator.migrate`: no-op success when already migrated or when no
old data exists; otherwise transform, save the new snapshot, and archive
the old keys.  Returns the final storage and the method's Bool result. -/
def migrateF (env : MigEnv) (store : Store) : Store × Bool :=
  if isAlreadyMigratedF store then (store, true)
  else
    match loadOldDataF store with
    | none => (store, true)
    | some oldData =>
      let newData := transformDataF env oldData
      let store1 := saveNewDataF env newData store
      let store2 := archiveOldDataF store1
      (store2, true)

/-! ## Specification-side definitions

These follow the specification's words rather than the source, so that the
source functions can be proved to refine them. -/

/-- Modelled from the spec: the new (non-colliding) elements a keyed union
contributes, given the keys already taken — an element is kept when its key
has not been seen, and keeping it marks its key as seen, so on a collision
the earlier record wins and the later duplicate is dropped. -/
def specInsertNew {α κ : Type} [BEq κ] (key : α → κ) : List κ → List α → List α
  | _, [] => []
  | seen, x :: xs =>
    if seen.any (fun k => k == key x) then specInsertNew key seen xs
    else x :: specInsertNew key (key x :: seen) xs

/-- Modelled from the spec: the union of two collections keyed by `key`, the
existing collection's records winning collisions and imported duplicates
being dropped rather than overwriting. -/
def specUnionByKey {α κ : Type} [BEq κ] (key : α → κ) (e i : List α) : List α :=
  e ++ specInsertNew key (e.map key) i

/-- `any` over a mapped list. -/
theorem anyMapKey {α κ : Type} (f : α → κ) (p : κ → Bool) (l : List α) :
    (l.map f).any p = l.any (fun x => p (f x)) := by
  induction l with
  | nil => rfl
  | cons x xs ih => simp [List.any_cons, ih]

/-- `specInsertNew` only consults the seen list through key membership. -/
theorem specInsertNew_congr {α κ : Type} [BEq κ] (key : α → κ)
    (l : List α) : ∀ {s₁ s₂ : List κ},
    (∀ c, s₁.any (fun k => k == c) = s₂.any (fun k => k == c)) →
    specInsertNew key s₁ l = specInsertNew key s₂ l := by
  induction l with
  | nil => intro s₁ s₂ _; rfl
  | cons x xs ih =>
    intro s₁ s₂ h
    simp only [specInsertNew, h (key x)]
    by_cases hc : s₂.any (fun k => k == key x) = true
    · simp [hc, ih h]
    · have h' : ∀ c, (key x :: s₁).any (fun k => k == c) =
          (key x :: s₂).any (fun k => k == c) := by
        intro c; simp [List.any_cons, h c]
      simp [hc, ih h']

/-- The fold of `mergeData` equals the spec's keyed union: each imported
element joins the accumulated collection exactly when its key is new. -/
theorem mergeUnique_eq_specUnionByKey {α κ : Type} [BEq κ] (key : α → κ)
    (e i : List α) : mergeUnique key e i = specUnionByKey key e i := by
  suffices h : ∀ (i acc : List α),
      mergeUnique key acc i = acc ++ specInsertNew key (acc.map key) i by
    exact h i e
  intro i
  induction i with
  | nil => intro acc; simp [mergeUnique, specInsertNew]
  | cons x xs ih =>
    intro acc
    have hstep : mergeUnique key acc (x :: xs) =
        mergeUnique key
          (if acc.any (fun y => key y == key x) then acc else acc ++ [x]) xs :=
      rfl
    have hany : acc.any (fun y => key y == key x) =
        (acc.map key).any (fun k => k == key x) :=
      (anyMapKey key (fun k => k == key x) acc).symm
    by_cases hc : (acc.map key).any (fun k => k == key x) = true
    · rw [hstep, hany, hc, if_pos rfl, ih acc]
      simp [specInsertNew, hc]
    · have hc' : (acc.map key).any (fun k => k == key x) = false :=
        Bool.eq_false_iff.2 hc
      rw [hstep, hany, hc']
      simp only [Bool.false_eq_true, if_false]
      rw [ih (acc ++ [x])]
      have hseen : ∀ c, ((acc ++ [x]).map key).any (fun k => k == c) =
          ((key x :: acc.map key)).any (fun k => k == c) := by
        intro c
        simp [List.map_append, List.any_append, List.any_cons, Bool.or_comm]
      rw [specInsertNew_congr key xs hseen]
      simp [specInsertNew, hc', List.append_assoc]

/-- `jsFindIndex` never returns a value below `-1`. -/
theorem jsFindIndex_lb {α : Type} (p : α → Bool) (l : List α) :
    -1 ≤ jsFindIndex p l := by
  induction l with
  | nil => simp [jsFindIndex]
  | cons x xs ih =>
    cases hpx : p x with
    | true => simp [jsFindIndex, hpx]
    | false =>
      by_cases hr : jsFindIndex p xs = -1
      · simp [jsFindIndex, hpx, hr]
      · have hred : jsFindIndex p (x :: xs) = jsFindIndex p xs + 1 := by
          simp [jsFindIndex, hpx, hr]
        rw [hred]; omega

/-- `jsFindIndex` returns `-1` exactly on a predicate with no match. -/
theorem jsFindIndex_eq_neg1_iff {α : Type} (p : α → Bool) (l : List α) :
    jsFindIndex p l = -1 ↔ ∀ x ∈ l, p x = false := by
  induction l with
  | nil => simp [jsFindIndex]
  | cons x xs ih =>
    cases hpx : p x with
    | true =>
      have hred : jsFindIndex p (x :: xs) = 0 := by simp [jsFindIndex, hpx]
      rw [hred]
      constructor
      · intro h; exact absurd h (by decide)
      · intro h; exact absurd (h x (List.mem_cons_self _ _)) (by simp [hpx])
    | false =>
      by_cases hr : jsFindIndex p xs = -1
      · have hred : jsFindIndex p (x :: xs) = -1 := by
          simp [jsFindIndex, hpx, hr]
        rw [hred]
        constructor
        · intro _ y hy
          rcases List.mem_cons.1 hy with h | h
          · rw [h]; exact hpx
          · exact (ih.1 hr) y h
        · intro _; rfl
      · have hred : jsFindIndex p (x :: xs) = jsFindIndex p xs + 1 := by
          simp [jsFindIndex, hpx, hr]
        rw [hred]
        have hlb := jsFindIndex_lb p xs
        constructor
        · intro h; exfalso; omega
        · intro h
          exact absurd (ih.2 (fun y hy => h y (List.mem_cons_of_mem _ hy))) hr

/-- When an element satisfying `p` sits right after the prefix `pre`,
`findIndex` lands on `pre.length` exactly when nothing in `pre`
satisfies `p`. -/
theorem jsFindIndex_append_iff {α : Type} (p : α → Bool) (x : α) (xs : List α)
    (hx : p x = true) : ∀ pre : List α,
    jsFindIndex p (pre ++ x :: xs) = (pre.length : Int) ↔
      ∀ y ∈ pre, p y = false := by
  intro pre
  induction pre with
  | nil => simp [jsFindIndex, hx]
  | cons y pre' ih =>
    cases hpy : p y with
    | true =>
      have hred : jsFindIndex p ((y :: pre') ++ x :: xs) = 0 := by
        simp [List.cons_append, jsFindIndex, hpy]
      rw [hred]
      constructor
      · intro h
        exfalso
        simp only [List.length_cons] at h
        omega
      · intro h; exact absurd (h y (List.mem_cons_self _ _)) (by simp [hpy])
    | false =>
      have hne : jsFindIndex p (pre' ++ x :: xs) ≠ -1 := by
        rw [Ne, jsFindIndex_eq_neg1_iff]
        intro hall
        exact absurd
          (hall x (List.mem_append_right _ (List.mem_cons_self _ _)))
          (by simp [hx])
      have hred : jsFindIndex p ((y :: pre') ++ x :: xs) =
          jsFindIndex p (pre' ++ x :: xs) + 1 := by
        simp [List.cons_append, jsFindIndex, hpy, hne]
      rw [hred]
      constructor
      · intro h y' hy'mem
        rcases List.mem_cons.1 hy'mem with hh | hh
        · rw [hh]; exact hpy
        · refine ih.1 ?_ y' hh
          simp only [List.length_cons] at h
          omega
      · intro h
        have hmain := ih.2 (fun z hz => h z (List.mem_cons_of_mem _ hz))
        simp only [List.length_cons]
        omega

/-- The `filter`/`findIndex` first-occurrence de-duplication of `mergeData`
equals the spec's keep-first de-duplication. -/
theorem dedupLoansByFirst_eq_specInsertNew (a : List Loan) :
    dedupLoansByFirst a = specInsertNew (fun l => l.loanId) [] a := by
  suffices h : ∀ (l pre : List Loan),
      ((List.enumFrom pre.length l).filter (fun q =>
          jsFindIndex (fun t => t.loanId == q.2.loanId) (pre ++ l) ==
            (q.1 : Int))).map Prod.snd =
        specInsertNew (fun t => t.loanId) (pre.map (fun t => t.loanId)) l by
    have := h a []
    simpa [dedupLoansByFirst, List.enum] using this
  intro l
  induction l with
  | nil => intro pre; simp [specInsertNew]
  | cons x xs ih =>
    intro pre
    have hx : (fun t : Loan => t.loanId == x.loanId) x = true := by simp
    have hrec := ih (pre ++ [x])
    rw [List.append_assoc, List.singleton_append] at hrec
    simp only [List.length_append, List.length_singleton] at hrec
    have hseenEq : (pre.map (fun t => t.loanId)).any
        (fun k => k == x.loanId) = pre.any (fun t => t.loanId == x.loanId) :=
      anyMapKey (fun t => t.loanId) (fun k => k == x.loanId) pre
    by_cases hc : pre.any (fun t => t.loanId == x.loanId) = true
    · have hfi : jsFindIndex (fun t => t.loanId == x.loanId)
          (pre ++ x :: xs) ≠ (pre.length : Int) := by
        intro hcontra
        have hall := (jsFindIndex_append_iff _ x xs hx pre).1 hcontra
        rw [List.any_eq_true] at hc
        obtain ⟨y, hy, hyx⟩ := hc
        rw [hall y hy] at hyx
        exact absurd hyx (by decide)
      have hkeep : (jsFindIndex (fun t => t.loanId == x.loanId)
          (pre ++ x :: xs) == ((pre.length : Nat) : Int)) = false :=
        beq_eq_false_iff_ne.2 hfi
      have hstep : ((List.enumFrom pre.length (x :: xs)).filter (fun q =>
          jsFindIndex (fun t => t.loanId == q.2.loanId) (pre ++ x :: xs) ==
            (q.1 : Int))).map Prod.snd =
          ((List.enumFrom (pre.length + 1) xs).filter (fun q =>
            jsFindIndex (fun t => t.loanId == q.2.loanId) (pre ++ x :: xs) ==
              (q.1 : Int))).map Prod.snd := by
        simp only [List.enumFrom, List.filter_cons, hkeep, Bool.false_eq_true,
          if_false]
      rw [hstep, hrec]
      have hseen' : ∀ c : Int, ((pre ++ [x]).map (fun t => t.loanId)).any
          (fun k => k == c) =
          ((pre.map (fun t => t.loanId))).any (fun k => k == c) := by
        intro c
        rw [anyMapKey, anyMapKey, List.any_append]
        by_cases hcx : (x.loanId == c) = true
        · have hxc : x.loanId = c := by simpa using hcx
          have hb : pre.any (fun t => t.loanId == c) = true := by
            rw [List.any_eq_true] at hc ⊢
            obtain ⟨y, hy, hyx⟩ := hc
            have h1 : y.loanId = x.loanId := by simpa using hyx
            exact ⟨y, hy, by simp [h1, hxc]⟩
          simp [List.any_cons, hcx, hb]
        · have hcx' : (x.loanId == c) = false := Bool.eq_false_iff.2 hcx
          simp [List.any_cons, hcx']
      rw [specInsertNew_congr (fun t : Loan => t.loanId) xs hseen']
      have hc' : (pre.map (fun t => t.loanId)).any
          (fun k => k == x.loanId) = true := by rw [hseenEq]; exact hc
      simp [specInsertNew, hc']
    · have hcf : pre.any (fun t => t.loanId == x.loanId) = false :=
        Bool.eq_false_iff.2 hc
      have hfi : jsFindIndex (fun t => t.loanId == x.loanId)
          (pre ++ x :: xs) = (pre.length : Int) := by
        rw [jsFindIndex_append_iff _ x xs hx pre]
        intro y hy
        rw [List.any_eq_false] at hcf
        exact Bool.eq_false_iff.2 (hcf y hy)
      have hkeep : (jsFindIndex (fun t => t.loanId == x.loanId)
          (pre ++ x :: xs) == ((pre.length : Nat) : Int)) = true := by
        rw [hfi]; simp
      have hstep : ((List.enumFrom pre.length (x :: xs)).filter (fun q =>
          jsFindIndex (fun t => t.loanId == q.2.loanId) (pre ++ x :: xs) ==
            (q.1 : Int))).map Prod.snd =
          x :: ((List.enumFrom (pre.length + 1) xs).filter (fun q =>
            jsFindIndex (fun t => t.loanId == q.2.loanId) (pre ++ x :: xs) ==
              (q.1 : Int))).map Prod.snd := by
        simp [List.enumFrom, List.filter_cons, hkeep]
      rw [hstep, hrec]
      have hseen' : ∀ c : Int, ((pre ++ [x]).map (fun t => t.loanId)).any
          (fun k => k == c) =
          ((x.loanId :: pre.map (fun t => t.loanId))).any
            (fun k => k == c) := by
        intro c
        rw [anyMapKey, List.any_cons, anyMapKey, List.any_append]
        simp [List.any_cons, Bool.or_comm]
      rw [specInsertNew_congr (fun t : Loan => t.loanId) xs hseen']
      have hc2 : (pre.map (fun t => t.loanId)).any
          (fun k => k == x.loanId) = false := by rw [hseenEq]; exact hcf
      simp [specInsertNew, hc2]

/-- Association lookup distributes over append, preferring the left list. -/
theorem lookup_append (k : String) (A B : SettingsObj) :
    List.lookup k (A ++ B) =
      match List.lookup k A with
      | some v => some v
      | none => List.lookup k B := by
  induction A with
  | nil => simp
  | cons kv A ih =>
    by_cases hk : (k == kv.1) = true
    · simp [List.lookup, hk]
    · have hk' : (k == kv.1) = false := Bool.eq_false_iff.2 hk
      simp [List.lookup, hk', ih]

/-- Looking a key up in the overridden copy of `base` finds `base`'s entry
with `extra`'s value substituted when `extra` also binds the key. -/
theorem lookup_map_override (extra : SettingsObj) (k : String) :
    ∀ base : SettingsObj,
    List.lookup k (base.map (fun kv =>
        match List.lookup kv.1 extra with
        | some w => (kv.1, w)
        | none => kv)) =
      match List.lookup k base with
      | some v => some (match List.lookup k extra with
                        | some w => w
                        | none => v)
      | none => none := by
  intro base
  induction base with
  | nil => simp
  | cons kv base ih =>
    by_cases hk : (k == kv.1) = true
    · have hkk : k = kv.1 := by simpa using hk
      cases hkv : List.lookup kv.1 extra with
      | none => simp [List.lookup, hk, hkk, hkv]
      | some w => simp [List.lookup, hk, hkk, hkv]
    · have hk' : (k == kv.1) = false := Bool.eq_false_iff.2 hk
      cases hkv : List.lookup kv.1 extra with
      | none => simp [List.lookup, hk', hkv, ih]
      | some w => simp [List.lookup, hk', hkv, ih]

/-- Filtering `extra` down to keys absent from `base` does not change the
lookup of a key that `base` does not bind. -/
theorem lookup_filter_of_not_base (base : SettingsObj) (k : String)
    (hk : List.lookup k base = none) : ∀ extra : SettingsObj,
    List.lookup k (extra.filter (fun kv => (List.lookup kv.1 base).isNone)) =
      List.lookup k extra := by
  intro extra
  induction extra with
  | nil => simp
  | cons kv extra ih =>
    by_cases hkk : (k == kv.1) = true
    · have hEq : k = kv.1 := by simpa using hkk
      have hpred : (List.lookup kv.1 base).isNone = true := by
        rw [← hEq, hk]; rfl
      simp [List.filter_cons, hpred, List.lookup, hkk]
    · have hkk' : (k == kv.1) = false := Bool.eq_false_iff.2 hkk
      by_cases hpred : (List.lookup kv.1 base).isNone = true
      · simp [List.filter_cons, hpred, List.lookup, hkk', ih]
      · have hpred' : (List.lookup kv.1 base).isNone = false :=
          Bool.eq_false_iff.2 hpred
        simp [List.filter_cons, hpred', ih, List.lookup, hkk']

/-- Key lookup through the object spread `{ ...base, ...extra }`: `extra`'s
binding wins, `base`'s is the fallback. -/
theorem lookup_jsSpread (base extra : SettingsObj) (k : String) :
    List.lookup k (jsSpread base extra) =
      match List.lookup k extra with
      | some v => some v
      | none => List.lookup k base := by
  rw [jsSpread, lookup_append, lookup_map_override]
  cases hb : List.lookup k base with
  | some v => cases he : List.lookup k extra with
    | some w => simp
    | none => simp
  | none =>
    rw [lookup_filter_of_not_base base k hb extra]
    cases he : List.lookup k extra with
    | some w => simp
    | none => simp [hb]

/-- The new elements contributed by `specInsertNew` have pairwise-distinct
keys, none of which was already seen. -/
theorem specInsertNew_nodup {α κ : Type} [BEq κ] [LawfulBEq κ] (key : α → κ) :
    ∀ (l : List α) (seen : List κ),
    ((specInsertNew key seen l).map key).Nodup ∧
      ∀ k ∈ (specInsertNew key seen l).map key, k ∉ seen := by
  intro l
  induction l with
  | nil => intro seen; simp [specInsertNew]
  | cons x xs ih =>
    intro seen
    by_cases hc : seen.any (fun k => k == key x) = true
    · simpa [specInsertNew, hc] using ih seen
    · have hc' : seen.any (fun k => k == key x) = false :=
        Bool.eq_false_iff.2 hc
      have hxseen : key x ∉ seen := by
        intro hmem
        rw [List.any_eq_false] at hc'
        have := hc' _ hmem
        simp at this
      obtain ⟨hnodup, hfresh⟩ := ih (key x :: seen)
      constructor
      · simp only [specInsertNew, hc', Bool.false_eq_true, if_false,
          List.map_cons, List.nodup_cons]
        refine ⟨fun hmem => ?_, hnodup⟩
        exact (hfresh _ hmem) (List.mem_cons_self _ _)
      · intro k hk
        simp only [specInsertNew, hc', Bool.false_eq_true, if_false,
          List.map_cons, List.mem_cons] at hk
        rcases hk with h | h
        · rw [h]; exact hxseen
        · intro hmem
          exact (hfresh _ h) (List.mem_cons_of_mem _ hmem)

/-- A keyed union preserves key distinctness of the existing collection. -/
theorem specUnionByKey_nodupKeys {α κ : Type} [BEq κ] [LawfulBEq κ]
    (key : α → κ) (e i : List α) (he : (e.map key).Nodup) :
    ((specUnionByKey key e i).map key).Nodup := by
  rw [specUnionByKey, List.map_append, List.nodup_append]
  obtain ⟨hnodup, hfresh⟩ := specInsertNew_nodup key i (e.map key)
  exact ⟨he, hnodup, fun k hk hmem => (hfresh k hmem) hk⟩

/-- On a duplicate-free collection whose keys are all unseen,
`specInsertNew` keeps every element. -/
theorem specInsertNew_of_nodup {α κ : Type} [BEq κ] [LawfulBEq κ]
    (key : α → κ) : ∀ (l : List α) (seen : List κ),
    ((l.map key)).Nodup → (∀ k ∈ l.map key, k ∉ seen) →
    specInsertNew key seen l = l := by
  intro l
  induction l with
  | nil => intro seen _ _; rfl
  | cons x xs ih =>
    intro seen hnodup hfresh
    have hxs : key x ∉ seen :=
      hfresh _ (by simp)
    have hc : seen.any (fun k => k == key x) = false := by
      rw [List.any_eq_false]
      intro k hk hbeq
      have hEq : k = key x := by simpa using hbeq
      exact hxs (hEq ▸ hk)
    simp only [List.map_cons, List.nodup_cons] at hnodup
    rw [specInsertNew, hc]
    simp only [Bool.false_eq_true, if_false]
    congr 1
    apply ih
    · exact hnodup.2
    · intro k hk
      intro hmem
      rcases List.mem_cons.1 hmem with h | h
      · exact hnodup.1 (h ▸ hk)
      · exact hfresh k (List.mem_cons_of_mem _ hk) h

/-- Modelled from the spec: a customer's savings balance is the sum of the
customer's non-reversed DAILY/WEEKLY/MONTHLY amounts minus the sum of the
customer's non-reversed WITHDRAWAL amounts. -/
def specSavings (customerId : String) (ledger : List OldTx) : Int :=
  ((ledger.filter (fun tx => tx.cust == customerId && !tx.reversed &&
      (tx.type == "DAILY" || tx.type == "WEEKLY" || tx.type == "MONTHLY"))).map
    (fun tx => tx.amount)).sum -
  ((ledger.filter (fun tx => tx.cust == customerId && !tx.reversed &&
      tx.type == "WITHDRAWAL")).map (fun tx => tx.amount)).sum

/-- The signed accumulation of `calculateSavingsBalance` is the deposit sum
minus the withdrawal sum. -/
theorem savings_foldl (m : List OldTx) : ∀ b : Int,
    m.foldl (fun balance tx =>
      if tx.type == "DAILY" || tx.type == "WEEKLY" || tx.type == "MONTHLY" then
        balance + tx.amount
      else if tx.type == "WITHDRAWAL" then balance - tx.amount
      else balance) b =
    b + ((m.filter (fun tx =>
          tx.type == "DAILY" || tx.type == "WEEKLY" ||
            tx.type == "MONTHLY")).map (fun tx => tx.amount)).sum -
      ((m.filter (fun tx => tx.type == "WITHDRAWAL")).map
        (fun tx => tx.amount)).sum := by
  induction m with
  | nil => intro b; simp
  | cons t m ih =>
    intro b
    by_cases hdep : (t.type == "DAILY" || t.type == "WEEKLY" ||
        t.type == "MONTHLY") = true
    · have hwd : (t.type == "WITHDRAWAL") = false := by
        cases hw : (t.type == "WITHDRAWAL") with
        | false => rfl
        | true =>
          have ht : t.type = "WITHDRAWAL" := by simpa using hw
          rw [ht] at hdep
          exact absurd hdep (by decide)
      simp only [List.foldl_cons, hdep, if_pos rfl, if_true,
        eq_self_iff_true, List.filter_cons, hwd, Bool.false_eq_true,
        if_false, List.map_cons, List.sum_cons]
      rw [ih (b + t.amount)]
      ring
    · have hdep' : (t.type == "DAILY" || t.type == "WEEKLY" ||
          t.type == "MONTHLY") = false := Bool.eq_false_iff.2 hdep
      by_cases hwd : (t.type == "WITHDRAWAL") = true
      · simp only [List.foldl_cons, hdep', Bool.false_eq_true, if_false, hwd,
          if_pos rfl, if_true, eq_self_iff_true, List.filter_cons,
          List.map_cons, List.sum_cons]
        rw [ih (b - t.amount)]
        ring
      · have hwd' : (t.type == "WITHDRAWAL") = false := Bool.eq_false_iff.2 hwd
        simp only [List.foldl_cons, hdep', Bool.false_eq_true, if_false, hwd',
          List.filter_cons]
        exact ih b

/-- `calculateSavingsBalance` computes the spec's filtered-sum balance. -/
theorem calculateSavingsBalanceF_eq_specSavings (customerId : String)
    (ledger : List OldTx) :
    calculateSavingsBalanceF customerId (some ledger) =
      specSavings customerId ledger := by
  have hdef : calculateSavingsBalanceF customerId (some ledger) =
      (ledger.filter (fun tx => tx.cust == customerId && !tx.reversed)).foldl
        (fun balance tx =>
          if tx.type == "DAILY" || tx.type == "WEEKLY" ||
              tx.type == "MONTHLY" then balance + tx.amount
          else if tx.type == "WITHDRAWAL" then balance - tx.amount
          else balance) 0 := rfl
  rw [hdef, savings_foldl]
  rw [List.filter_filter, List.filter_filter]
  rw [specSavings]
  have h1 : ∀ tx : OldTx,
      ((tx.type == "DAILY" || tx.type == "WEEKLY" || tx.type == "MONTHLY") &&
        (tx.cust == customerId && !tx.reversed)) =
      (tx.cust == customerId && !tx.reversed &&
        (tx.type == "DAILY" || tx.type == "WEEKLY" || tx.type == "MONTHLY")) := by
    intro tx; rw [Bool.and_comm]
  have h2 : ∀ tx : OldTx,
      ((tx.type == "WITHDRAWAL") && (tx.cust == customerId && !tx.reversed)) =
      (tx.cust == customerId && !tx.reversed && tx.type == "WITHDRAWAL") := by
    intro tx; rw [Bool.and_comm]
  rw [List.filter_congr (fun x _ => h1 x), List.filter_congr (fun x _ => h2 x)]
  ring

/-- Truncated-take composition: taking `n` of a list whose tail part was
already cut to `n` is the same as cutting the uncut concatenation. -/
theorem take_append_take {α : Type} (n : ℕ) (A B : List α) :
    List.take n (A ++ List.take n B) = List.take n (A ++ B) := by
  rw [List.take_append_eq_append_take, List.take_append_eq_append_take,
    List.take_take]
  congr 1
  rw [min_eq_left (Nat.sub_le _ _)]

/-- Repeated `createBackup` (the in-memory part), oldest call first. -/
def iterCreateBackup (envs : List Env) (ty : String) (st : Snapshot) :
    Snapshot :=
  envs.foldl (fun s e => (createBackupCore e ty s).1) st

/-- One `createBackup` turns the history into the 50-truncation of the new
entry prepended to the old history (timestamp view). -/
theorem createBackupCore_hist_ts (e : Env) (ty : String) (st : Snapshot) :
    ((createBackupCore e ty st).1.backup_history).map (fun b => b.timestamp) =
      List.take 50 (e.now ::
        st.backup_history.map (fun b => b.timestamp)) := by
  obtain ⟨s, u, c, t, l, bh, al, md⟩ := st
  simp only [createBackupCore, Snapshot.backup_history, Snapshot.customers,
    Snapshot.transactions, Snapshot.users, Snapshot.settings, Snapshot.loans,
    Snapshot.audit_log, Snapshot.metadata, List.length_cons, gt_iff_lt]
  by_cases h : 50 < bh.length + 1
  · rw [if_pos h, List.map_take, List.map_cons]
  · rw [if_neg h, List.map_cons,
      List.take_of_length_le (by simp only [List.length_cons, List.length_map]; omega)]

/-- After one `createBackup` the history never exceeds 50 entries. -/
theorem createBackupCore_hist_len_le (e : Env) (ty : String) (st : Snapshot) :
    (createBackupCore e ty st).1.backup_history.length ≤ 50 := by
  obtain ⟨s, u, c, t, l, bh, al, md⟩ := st
  simp only [createBackupCore, Snapshot.backup_history, Snapshot.customers,
    Snapshot.transactions, Snapshot.users, Snapshot.settings, Snapshot.loans,
    Snapshot.audit_log, Snapshot.metadata, List.length_cons, gt_iff_lt]
  by_cases h : 50 < bh.length + 1
  · rw [if_pos h]
    simp only [List.length_take]
    exact min_le_left _ _
  · rw [if_neg h]
    simp only [List.length_cons]
    omega

/-- Timestamp view of iterated backups: the history is the 50-truncation of
the call timestamps (newest first) prepended to the starting history. -/
theorem iterCreateBackup_ts (ty : String) : ∀ (envs : List Env)
    (st : Snapshot), st.backup_history.length ≤ 50 →
    ((iterCreateBackup envs ty st).backup_history).map (fun b => b.timestamp) =
      List.take 50 ((envs.map (fun e => e.now)).reverse ++
        st.backup_history.map (fun b => b.timestamp)) := by
  intro envs
  induction envs with
  | nil =>
    intro st h
    rw [iterCreateBackup]
    simp only [List.foldl_nil, List.map_nil, List.reverse_nil,
      List.nil_append]
    rw [List.take_of_length_le (by simpa using h)]
  | cons e envs ih =>
    intro st h
    have hstep : iterCreateBackup (e :: envs) ty st =
        iterCreateBackup envs ty (createBackupCore e ty st).1 := rfl
    rw [hstep, ih _ (createBackupCore_hist_len_le e ty st),
      createBackupCore_hist_ts, take_append_take]
    simp only [List.map_cons, List.reverse_cons, List.append_assoc,
      List.singleton_append]

/-! ## Claim theorems -/

/-- A v2.3 customer as the migrator produces it: `balance_savings` is set,
the legacy `balance` field is absent. -/
def c1Customer : Customer := { id := 7, balance_savings := 30 }

def c1Snapshot : Snapshot :=
  .mk getDefaultSettingsF [] [c1Customer] [] [] [] [] {}

/-- C1: on a snapshot holding one customer with `balance_savings = 30` and no
legacy `balance` field, the metadata recomputed by `saveAllData` has
`total_savings = 0` — `calculateTotalSavings` reads `customer.balance`
instead of `balance_savings` — while the collection lengths are derived as
claimed.  This contradicts the claim (and `DataMigrator.calculateTotalSavings`
in the same code base, which sums `balance_savings`). -/
theorem c1_total_savings_eval :
    ((saveAllDataF { now := "t1", ua := "ua" } c1Snapshot {}).1.metadata.total_savings = 0) ∧
    (c1Snapshot.customers.map (fun c => c.balance_savings)).sum = 30 ∧
    ((saveAllDataF { now := "t1", ua := "ua" } c1Snapshot {}).1.metadata.total_customers = 1) ∧
    ((saveAllDataF { now := "t1", ua := "ua" } c1Snapshot {}).1.metadata.total_transactions = 0) := by
  refine ⟨rfl, by decide, rfl, rfl⟩

/-- C2: merge-on-import preserves key uniqueness — when the existing
snapshot's customers, transactions and users have pairwise-distinct ids,
txIds and usernames, so does the merged snapshot. -/
theorem c2_merge_uniqueness (E : Snapshot) (I : ImportSnap)
    (hc : (E.customers.map (fun c => c.id)).Nodup)
    (ht : (E.transactions.map (fun t => t.txId)).Nodup)
    (hu : (E.users.map (fun u => u.username)).Nodup) :
    ((mergeDataF E I).customers.map (fun c => c.id)).Nodup ∧
    ((mergeDataF E I).transactions.map (fun t => t.txId)).Nodup ∧
    ((mergeDataF E I).users.map (fun u => u.username)).Nodup := by
  refine ⟨?_, ?_, ?_⟩
  · show ((mergeUnique (fun c => c.id) E.customers I.customers).map
      (fun c => c.id)).Nodup
    rw [mergeUnique_eq_specUnionByKey]
    exact specUnionByKey_nodupKeys _ _ _ hc
  · show ((mergeUnique (fun t => t.txId) E.transactions
      I.transactions).map (fun t => t.txId)).Nodup
    rw [mergeUnique_eq_specUnionByKey]
    exact specUnionByKey_nodupKeys _ _ _ ht
  · show ((mergeUnique (fun u => u.username) E.users I.users).map
      (fun u => u.username)).Nodup
    rw [mergeUnique_eq_specUnionByKey]
    exact specUnionByKey_nodupKeys _ _ _ hu

def c2Existing : Snapshot := createDefaultDataF "t0"

def c2Imported : ImportSnap :=
  { customers := [{ id := 7, balance_savings := 30 }, { id := 7 }],
    transactions := [{ txId := 1001 }],
    users := [{ id := 1, username := "Admin" }],
    settings := [("theme", "dark")],
    loans := [] }

/-- Witness for C2 at a concrete merge. -/
theorem c2_merge_uniqueness_witness :
    ((mergeDataF c2Existing c2Imported).customers.map (fun c => c.id)).Nodup ∧
    ((mergeDataF c2Existing c2Imported).transactions.map
      (fun t => t.txId)).Nodup ∧
    ((mergeDataF c2Existing c2Imported).users.map
      (fun u => u.username)).Nodup :=
  c2_merge_uniqueness c2Existing c2Imported (by decide) (by decide) (by decide)

/-- C3: the Migrator is idempotent — when the v2.3 settings record or the
archive record already exists, `migrate` writes nothing and reports success,
and a second run after any first run leaves the persisted state of the first
run unchanged (and reports success). -/
theorem c3_migrate_idempotent (e1 e2 : MigEnv) (store : Store) :
    (isAlreadyMigratedF store = true → migrateF e1 store = (store, true)) ∧
    migrateF e2 (migrateF e1 store).1 = ((migrateF e1 store).1, true) := by
  constructor
  · intro h
    simp [migrateF, h]
  · by_cases hg : isAlreadyMigratedF store = true
    · simp [migrateF, hg]
    · have hg' : isAlreadyMigratedF store = false := Bool.eq_false_iff.2 hg
      cases hold : loadOldDataF store with
      | none => simp [migrateF, hg', hold]
      | some od =>
        have hfirst : (migrateF e1 store).1 =
            archiveOldDataF (saveNewDataF e1 (transformDataF e1 od) store) := by
          simp [migrateF, hg', hold]
        rw [hfirst]
        have harch : isAlreadyMigratedF
            (archiveOldDataF (saveNewDataF e1 (transformDataF e1 od) store)) =
              true := by
          simp [isAlreadyMigratedF, archiveOldDataF]
        simp [migrateF, harch]

/-- `importData` succeeds exactly when `validateImportData` accepts the
container. -/
theorem importDataF_isOk (env : Env) (c : Container) (st : Snapshot)
    (store : Store) :
    (importDataF env c st store).isOk = validateImportDataF c := by
  by_cases hv : validateImportDataF c = true
  · have hv' := hv
    rw [validateImportDataF, Bool.and_eq_true] at hv'
    obtain ⟨_, hdata⟩ := hv'
    cases hd : c.data with
    | none => rw [hd] at hdata; exact absurd hdata (by decide)
    | some d =>
      rw [hd, Bool.and_eq_true] at hdata
      obtain ⟨hcs, hts⟩ := hdata
      obtain ⟨cs, hcs'⟩ := Option.isSome_iff_exists.1 hcs
      obtain ⟨ts, hts'⟩ := Option.isSome_iff_exists.1 hts
      rw [hv]
      simp [importDataF, hv, hd, hcs', hts', ImportResult.isOk]
  · have hv' : validateImportDataF c = false := Bool.eq_false_iff.2 hv
    rw [hv']
    simp [importDataF, hv', ImportResult.isOk]

/-- The shape `validateImportData` accepts, as a proposition. -/
theorem validateImportDataF_iff (c : Container) :
    validateImportDataF c = true ↔
      c.schema_version = "2.3" ∧
        ∃ d, c.data = some d ∧ d.customers.isSome = true ∧
          d.transactions.isSome = true := by
  rw [validateImportDataF, Bool.and_eq_true, beq_iff_eq]
  constructor
  · rintro ⟨h1, h2⟩
    cases hd : c.data with
    | none => rw [hd] at h2; exact absurd h2 (by decide)
    | some d =>
      rw [hd, Bool.and_eq_true] at h2
      exact ⟨h1, d, rfl, h2.1, h2.2⟩
  · rintro ⟨h1, d, hd, hcs, hts⟩
    rw [hd]
    refine ⟨h1, ?_⟩
    rw [Bool.and_eq_true]
    exact ⟨hcs, hts⟩

/-- C4: a container is accepted exactly when its `schema_version` is `"2.3"`
and it has a `data` member with `customers` and `transactions` present
(possibly empty); any other container — in particular a `"2.2"` one — is
rejected as invalid format, with the snapshot and the storage unchanged. -/
theorem c4_import_validation (env : Env) (c : Container) (st : Snapshot)
    (store : Store) :
    ((importDataF env c st store).isOk = true ↔
      c.schema_version = "2.3" ∧
        ∃ d, c.data = some d ∧ d.customers.isSome = true ∧
          d.transactions.isSome = true) ∧
    (validateImportDataF c = false →
      importDataF env c st store = .invalidFormat st store) := by
  constructor
  · rw [importDataF_isOk]
    exact validateImportDataF_iff c
  · intro hv
    simp [importDataF, hv]

def c4Container22 : Container :=
  { schema_version := "2.2",
    data := some { customers := some [], transactions := some [] } }

def c4Snapshot : Snapshot := createDefaultDataF "t0"

/-- Witness for C4: a `"2.2"` container is rejected, nothing mutated. -/
theorem c4_import_validation_witness :
    importDataF { now := "t1", ua := "u" } c4Container22 c4Snapshot {} =
      .invalidFormat c4Snapshot {} :=
  (c4_import_validation { now := "t1", ua := "u" } c4Container22 c4Snapshot
    {}).2 (by decide)

/-- C5: what merge-on-import produces, per collection: keyed unions (E wins,
duplicates dropped) for customers, transactions and users; imported settings
overlaying existing ones key-by-key; loans de-duplicated by first occurrence
over the concatenation with E's entries first. -/
theorem c5_mergeData_characterization (E : Snapshot) (I : ImportSnap) :
    (mergeDataF E I).customers =
      specUnionByKey (fun c => c.id) E.customers I.customers ∧
    (mergeDataF E I).transactions =
      specUnionByKey (fun t => t.txId) E.transactions I.transactions ∧
    (mergeDataF E I).users =
      specUnionByKey (fun u => u.username) E.users I.users ∧
    (∀ k : String, List.lookup k (mergeDataF E I).settings =
      match List.lookup k I.settings with
      | some v => some v
      | none => List.lookup k E.settings) ∧
    (mergeDataF E I).loans =
      specInsertNew (fun l => l.loanId) [] (E.loans ++ I.loans) := by
  refine ⟨?_, ?_, ?_, ?_, ?_⟩
  · exact mergeUnique_eq_specUnionByKey (fun c => c.id) E.customers I.customers
  · exact mergeUnique_eq_specUnionByKey (fun t => t.txId) E.transactions
      I.transactions
  · exact mergeUnique_eq_specUnionByKey (fun u => u.username) E.users I.users
  · intro k
    exact lookup_jsSpread E.settings I.settings k
  · exact dedupLoansByFirst_eq_specInsertNew (E.loans ++ I.loans)

/-- Export S and import the resulting container into a freshly created
(default) store. -/
def roundTripF (e1 e2 : Env) (serialized : String) (size : Nat) (S : Snapshot)
    (t0 : String) : ImportResult :=
  importDataF e2 (exportAllDataF e1 serialized size S {}).1
    (createDefaultDataF t0) {}

def c6Snapshot : Snapshot :=
  .mk getDefaultSettingsF [] [{ id := 7, balance_savings := 30 }] [] [] [] [] {}

/-- C6 counterexample: exporting a snapshot with no users and importing it
into an empty store does not reproduce the snapshot — the empty store's
seeded admin user survives the merge, so the result differs from the
original. -/
theorem c6_roundtrip_counterexample :
    (roundTripF { now := "t1", ua := "u" } { now := "t2", ua := "u" } "ser" 0
      c6Snapshot "t0").isOk = true ∧
    (roundTripF { now := "t1", ua := "u" } { now := "t2", ua := "u" } "ser" 0
      c6Snapshot "t0").snap ≠ c6Snapshot := by
  constructor
  · rfl
  · intro h
    exact absurd (congrArg (fun s => s.users.length) h) (by decide)

/-- Projections of a save are the saved snapshot's collections. -/
theorem saveAllDataF_collections (env : Env) (st : Snapshot) (store : Store) :
    (saveAllDataF env st store).1.customers = st.customers ∧
    (saveAllDataF env st store).1.transactions = st.transactions ∧
    (saveAllDataF env st store).1.loans = st.loans := ⟨rfl, rfl, rfl⟩

/-- C6 amended: the round trip through export and import into an empty store
succeeds and reproduces the customers, transactions and loans collections
verbatim (no id-renumbering) whenever their keys are pairwise distinct — but
not the whole snapshot, as the counterexample shows. -/
theorem c6_roundtrip_amended (e1 e2 : Env) (serialized : String) (size : Nat)
    (S : Snapshot) (t0 : String)
    (hc : (S.customers.map (fun c => c.id)).Nodup)
    (ht : (S.transactions.map (fun t => t.txId)).Nodup)
    (hl : (S.loans.map (fun l => l.loanId)).Nodup) :
    (roundTripF e1 e2 serialized size S t0).isOk = true ∧
    (roundTripF e1 e2 serialized size S t0).snap.customers = S.customers ∧
    (roundTripF e1 e2 serialized size S t0).snap.transactions =
      S.transactions ∧
    (roundTripF e1 e2 serialized size S t0).snap.loans = S.loans := by
  refine ⟨rfl, ?_, ?_, ?_⟩
  · show mergeUnique (fun c => c.id) [] S.customers = S.customers
    rw [mergeUnique_eq_specUnionByKey, specUnionByKey]
    simp only [List.map_nil, List.nil_append]
    exact specInsertNew_of_nodup _ _ _ hc (by simp)
  · show mergeUnique (fun t => t.txId) [] S.transactions = S.transactions
    rw [mergeUnique_eq_specUnionByKey, specUnionByKey]
    simp only [List.map_nil, List.nil_append]
    exact specInsertNew_of_nodup _ _ _ ht (by simp)
  · show dedupLoansByFirst ([] ++ S.loans) = S.loans
    rw [List.nil_append, dedupLoansByFirst_eq_specInsertNew]
    exact specInsertNew_of_nodup _ _ _ hl (by simp)

/-- Witness for the amended C6 at a concrete snapshot. -/
theorem c6_roundtrip_amended_witness :
    (roundTripF { now := "t1", ua := "u" } { now := "t2", ua := "u" } "ser" 0
      c6Snapshot "t0").isOk = true ∧
    (roundTripF { now := "t1", ua := "u" } { now := "t2", ua := "u" } "ser" 0
      c6Snapshot "t0").snap.customers = c6Snapshot.customers ∧
    (roundTripF { now := "t1", ua := "u" } { now := "t2", ua := "u" } "ser" 0
      c6Snapshot "t0").snap.transactions = c6Snapshot.transactions ∧
    (roundTripF { now := "t1", ua := "u" } { now := "t2", ua := "u" } "ser" 0
      c6Snapshot "t0").snap.loans = c6Snapshot.loans :=
  c6_roundtrip_amended { now := "t1", ua := "u" } { now := "t2", ua := "u" }
    "ser" 0 c6Snapshot "t0" (by decide) (by decide) (by decide)

def c7Env : MigEnv :=
  { now := "tM", today := "d0", ua := "u", freshTxId := fun _ => 0,
    genId := fun _ => 0 }

def c7OldData : OldData :=
  { members := some [("7", { name := some "Ada", phone := some "123" })],
    ledger := some
      [{ cust := "7", type := "DAILY", amount := 50 },
       { cust := "7", type := "WITHDRAWAL", amount := 20 }] }

/-- C7: migrating the documented example produces exactly one customer with
id 7 and `balance_savings` 30, and in general `calculateSavingsBalance` is
the sum of the customer's non-reversed DAILY/WEEKLY/MONTHLY amounts minus
its non-reversed WITHDRAWAL amounts. -/
theorem c7_migrator_balance :
    (∀ (customerId : String) (ledger : List OldTx),
      calculateSavingsBalanceF customerId (some ledger) =
        specSavings customerId ledger) ∧
    (transformDataF c7Env c7OldData).customers.length = 1 ∧
    ((transformDataF c7Env c7OldData).customers.map
      (fun c => (c.id, c.balance_savings))) = [(7, 30)] := by
  refine ⟨calculateSavingsBalanceF_eq_specSavings, rfl, by decide⟩

def c8Entry : BackupEntry := { type := "auto_backup", timestamp := "t" }

def c8Snapshot : Snapshot :=
  .mk [] [] [] [] [] (List.replicate 50 c8Entry) [] {}

/-- C8 counterexample: `logBackup` also appends to BackupHistory, by
prepending — but without the 50-entry truncation, so one `logBackup` on a
full history leaves 51 entries, contradicting "the collection never exceeds
50 entries". -/
theorem c8_logBackup_counterexample :
    c8Snapshot.backup_history.length = 50 ∧
    ((logBackupF { now := "t2", ua := "u" } "manual" 0 {} c8Snapshot
      {}).1.backup_history).length = 51 := by
  exact ⟨by decide, by decide⟩

/-- C8 amended: iterated `createBackup` keeps BackupHistory at exactly 50
entries once at least 50 calls have happened, holding the 50 most recent
call timestamps most-recent-first; `logBackup`, however, prepends without
truncating, growing the history by one each time. -/
theorem c8_backup_history_bounded (envs : List Env) (ty : String)
    (st : Snapshot) (h : 50 ≤ envs.length) :
    ((iterCreateBackup envs ty st).backup_history).map
        (fun b => b.timestamp) =
      ((envs.map (fun e => e.now)).reverse).take 50 ∧
    (iterCreateBackup envs ty st).backup_history.length = 50 ∧
    (∀ (env : Env) (ty' : String) (sz : Nat) (bd : Container)
      (st' : Snapshot) (store : Store),
      ((logBackupF env ty' sz bd st' store).1.backup_history).length =
        st'.backup_history.length + 1) := by
  cases envs with
  | nil => exact absurd h (by decide)
  | cons e rest =>
    have hstep : iterCreateBackup (e :: rest) ty st =
        iterCreateBackup rest ty (createBackupCore e ty st).1 := rfl
    have hts := iterCreateBackup_ts ty rest (createBackupCore e ty st).1
      (createBackupCore_hist_len_le e ty st)
    have hlen : 50 ≤ ((rest.map (fun e => e.now)).reverse ++ [e.now]).length := by
      simp only [List.length_append, List.length_reverse, List.length_map,
        List.length_singleton]
      simpa using h
    have hmap : ((iterCreateBackup (e :: rest) ty st).backup_history).map
        (fun b => b.timestamp) =
        ((rest.map (fun e => e.now)).reverse ++ [e.now]).take 50 := by
      rw [hstep, hts, createBackupCore_hist_ts, take_append_take]
      rw [show (rest.map (fun e => e.now)).reverse ++
          (e.now :: st.backup_history.map (fun b => b.timestamp)) =
          ((rest.map (fun e => e.now)).reverse ++ [e.now]) ++
            st.backup_history.map (fun b => b.timestamp) by
        simp [List.append_assoc]]
      rw [List.take_append_of_le_length hlen]
    refine ⟨?_, ?_, ?_⟩
    · rw [hmap]
      congr 1
      simp
    · have := congrArg List.length hmap
      simp only [List.length_map, List.length_take] at this
      rw [this]
      omega
    · intro env ty' sz bd st' store
      obtain ⟨s, u, c, t, l, bh, al, md⟩ := st'
      simp [logBackupF, Snapshot.backup_history]

def c8Envs : List Env := List.replicate 50 { now := "T", ua := "u" }

/-- Witness for the amended C8 after exactly 50 backup calls. -/
theorem c8_backup_history_bounded_witness :
    ((iterCreateBackup c8Envs "auto_backup"
        (createDefaultDataF "z")).backup_history).map
        (fun b => b.timestamp) =
      ((c8Envs.map (fun e => e.now)).reverse).take 50 ∧
    (iterCreateBackup c8Envs "auto_backup"
      (createDefaultDataF "z")).backup_history.length = 50 ∧
    (∀ (env : Env) (ty' : String) (sz : Nat) (bd : Container)
      (st' : Snapshot) (store : Store),
      ((logBackupF env ty' sz bd st' store).1.backup_history).length =
        st'.backup_history.length + 1) :=
  c8_backup_history_bounded c8Envs "auto_backup" (createDefaultDataF "z")
    (by decide)

/-- Modelled from the spec: the restore sequence on the chosen backup's
embedded copy `d` — safety backup of the current state (kind
`pre_restore_backup`), replace the live snapshot with `d`, save it, then
append a `BACKUP_RESTORED` audit entry; the method returns success. -/
def specRestoreSequence (env : Env) (b : BackupEntry) (d : Snapshot)
    (st : Snapshot) (store : Store) : Option Snapshot × Store × Bool :=
  let (_, store1, _) := createBackupF env "pre_restore_backup" st store
  let (d1, store2) := saveAllDataF env d store1
  let (d2, store3) := logAuditF env "BACKUP_RESTORED"
    [("timestamp", env.now), ("backup_timestamp", b.timestamp),
     ("user", "system")] d1 store2
  (some d2, store3, true)

def c9LogEntry : BackupEntry :=
  { type := "manual", timestamp := "tL", size := some 10, items := some {} }

def c9Snapshot : Snapshot := .mk [] [] [] [] [] [c9LogEntry] [] {}

/-- C9 counterexample: index 0 is in range (the history holds one entry,
written by `logBackup`), yet `restoreBackup 0` neither fails with NotFound
nor performs the claimed restore sequence — the entry has no embedded
snapshot copy, so the live snapshot becomes `undefined` and the call
returns failure. -/
theorem c9_restore_counterexample :
    0 < c9Snapshot.backup_history.length ∧
    (restoreBackupF { now := "t", ua := "u" } 0 c9Snapshot {}).1 = none ∧
    (restoreBackupF { now := "t", ua := "u" } 0 c9Snapshot {}).2.2 = false := by
  exact ⟨by decide, rfl, rfl⟩

/-- C9 amended: `restoreBackup i` leaves everything unchanged and returns
failure when `i` is out of range of BackupHistory; on an in-range entry
carrying an embedded snapshot copy it performs exactly the claimed
sequence — safety backup, replace, save, `BACKUP_RESTORED` audit — and
returns success; but on an in-range entry written by `logBackup` (no
embedded copy) it destroys the live snapshot and returns failure. -/
theorem c9_restore_cases (env : Env) (i : Nat) (st : Snapshot)
    (store : Store) :
    (st.backup_history.length ≤ i →
      restoreBackupF env i st store = (some st, store, false)) ∧
    (∀ b, st.backup_history.get? i = some b →
      (∀ d, b.data = some d →
        restoreBackupF env i st store = specRestoreSequence env b d st store) ∧
      (b.data = none →
        (restoreBackupF env i st store).1 = none ∧
        (restoreBackupF env i st store).2.2 = false)) := by
  constructor
  · intro hlen
    have hget : st.backup_history.get? i = none :=
      List.get?_eq_none.2 hlen
    rw [List.get?_eq_getElem?] at hget
    simp [restoreBackupF, hget]
  · intro b hget
    rw [List.get?_eq_getElem?] at hget
    constructor
    · intro d hdata
      simp [restoreBackupF, hget, hdata, specRestoreSequence]
    · intro hdata
      simp [restoreBackupF, hget, hdata]

/-- C10: neither import validator reads the `checksum` field — changing or
removing it never changes validation, and a container that is otherwise
valid is accepted whatever its checksum; the standalone BackupUtility's
validator ignores it likewise. -/
theorem c10_checksum_never_verified :
    (∀ (c : Container) (ck : Option Int),
      validateImportDataF { c with checksum := ck } = validateImportDataF c) ∧
    (∀ (env : Env) (c : Container) (st : Snapshot) (store : Store)
      (ck : Option Int), validateImportDataF c = true →
      (importDataF env { c with checksum := ck } st store).isOk = true) ∧
    (∀ (b : BakContainer) (ck : Option Int),
      validateBackupF { b with checksum := ck } = validateBackupF b) := by
  refine ⟨fun c ck => rfl, ?_, fun b ck => rfl⟩
  intro env c st store ck hv
  rw [importDataF_isOk]
  exact hv
